import Mathlib

/-!
Verification of the helper utilities in
src/3rdparty/tensorrtbuffer/include/safe_common.h: the CUDA-graph wrapper
class TrtCudaGraphSafe and the pure helpers elementSize, volume, roundUp and
safeSplitString.

Modelling conventions.
The CUDA driver is an external vendor library, so each driver call is modelled
by passing its observable outcome (a return status and the values it writes
through out-parameters) as explicit arguments; all theorems quantify over those
outcomes.  A raw driver pointer such as cudaGraph_t is modelled as
Option Handle: none is nullptr, some h is a non-null pointer identified by h.
Statuses are the numeric cudaError_t values (cudaSuccess = 0).  A CHECK or
SAFE_ASSERT firing calls abort(), modelled by Outcome.aborted.  Every driver
call performed by a method is recorded as a DriverEvent so that
resource-accounting (destroy counts, capture modes, logging) can be stated.
-/

namespace tensorrt_buffer

/-- Numeric value of cudaSuccess in cudaError_t. -/
def cudaSuccess : Nat := 0

/-- Numeric value of cudaErrorStreamCaptureInvalidated in cudaError_t. -/
def cudaErrorStreamCaptureInvalidated : Nat := 901

/-- Numeric value of cudaStreamCaptureModeGlobal in cudaStreamCaptureMode. -/
def cudaStreamCaptureModeGlobal : Nat := 0

/-- Identity of a non-null opaque driver handle (graph or executable graph). -/
abbrev Handle := Nat

/-- Result of running a method: either the method returns normally with a
value, or a CHECK / SAFE_ASSERT fired and the process aborted. -/
inductive Outcome (α : Type) where
  | ok (a : α)
  | aborted
deriving DecidableEq, Repr

/-- One observable driver call made by the wrapper.  beginCap records the
capture mode passed to cudaStreamBeginCapture; endCap records the status and
the graph written through the out-parameter; instantiate likewise for
cudaGraphInstantiate; graphDestroy and execDestroy record the handle argument
of cudaGraphDestroy / cudaGraphExecDestroy; graphLaunch records the executable
handle passed to cudaGraphLaunch; getLastError and logError record the error
cleanup and the diagnostic message of endCaptureOnError. -/
inductive DriverEvent where
  | beginCap (mode : Nat) (ret : Nat)
  | endCap (ret : Nat) (g : Option Handle)
  | instantiate (ret : Nat) (e : Option Handle)
  | graphDestroy (g : Option Handle) (ret : Nat)
  | execDestroy (e : Handle)
  | graphLaunch (e : Option Handle) (ret : Nat)
  | getLastError
  | logError (msg : String)
deriving DecidableEq, Repr

/-- The two data members of class TrtCudaGraphSafe; the default member
initializers cudaGraph_t mGraph\x7b\x7d and cudaGraphExec_t mGraphExec\x7b\x7d
zero-initialize both pointers, i.e. both start as none. -/
structure TrtCudaGraphSafe where
  mGraph : Option Handle := none
  mGraphExec : Option Handle := none
deriving DecidableEq, Repr

/-- A default-constructed TrtCudaGraphSafe. -/
def TrtCudaGraphSafe.init : TrtCudaGraphSafe := {}

/-- beginCapture(stream): CHECK(cudaStreamBeginCapture(stream,
cudaStreamCaptureModeGlobal)).  retBegin is the status the driver returns;
CHECK aborts on any status other than 0 = cudaSuccess.  No member is touched. -/
def TrtCudaGraphSafe.beginCapture (s : TrtCudaGraphSafe) (retBegin : Nat) :
    Outcome TrtCudaGraphSafe × List DriverEvent :=
  (if retBegin = cudaSuccess then Outcome.ok s else Outcome.aborted,
   [DriverEvent.beginCap cudaStreamCaptureModeGlobal retBegin])

/-- launch(stream): return cudaGraphLaunch(mGraphExec, stream) == cudaSuccess.
retLaunch is the status the driver returns.  No CHECK: the method always
returns a bool and never aborts, and no member is touched. -/
def TrtCudaGraphSafe.launch (s : TrtCudaGraphSafe) (retLaunch : Nat) :
    Bool × List DriverEvent :=
  (retLaunch == cudaSuccess, [DriverEvent.graphLaunch s.mGraphExec retLaunch])

/-- endCapture(stream):
CHECK(cudaStreamEndCapture(stream, &mGraph));
CHECK(cudaGraphInstantiate(&mGraphExec, mGraph, nullptr, nullptr, 0));
CHECK(cudaGraphDestroy(mGraph)).
retEnd / gWritten are the status and out-parameter value of end-capture,
retInst / eWritten those of instantiate, retDestroy the status of destroy.
Note that after the destroy the code does NOT reset mGraph: the field keeps
the (now destroyed) handle value gWritten. -/
def TrtCudaGraphSafe.endCapture (s : TrtCudaGraphSafe) (retEnd : Nat)
    (gWritten : Option Handle) (retInst : Nat) (eWritten : Option Handle)
    (retDestroy : Nat) : Outcome TrtCudaGraphSafe × List DriverEvent :=
  let s1 : TrtCudaGraphSafe := { s with mGraph := gWritten }
  if retEnd ≠ cudaSuccess then
    (Outcome.aborted, [DriverEvent.endCap retEnd gWritten])
  else
    let s2 : TrtCudaGraphSafe := { s1 with mGraphExec := eWritten }
    if retInst ≠ cudaSuccess then
      (Outcome.aborted,
       [DriverEvent.endCap retEnd gWritten, DriverEvent.instantiate retInst eWritten])
    else if retDestroy ≠ cudaSuccess then
      (Outcome.aborted,
       [DriverEvent.endCap retEnd gWritten, DriverEvent.instantiate retInst eWritten,
        DriverEvent.graphDestroy s2.mGraph retDestroy])
    else
      (Outcome.ok s2,
       [DriverEvent.endCap retEnd gWritten, DriverEvent.instantiate retInst eWritten,
        DriverEvent.graphDestroy s2.mGraph retDestroy])

/-- endCaptureOnError(stream):
const auto ret = cudaStreamEndCapture(stream, &mGraph);
if (ret == cudaErrorStreamCaptureInvalidated) SAFE_ASSERT(mGraph == nullptr);
else \x7b SAFE_ASSERT(ret == cudaSuccess); SAFE_ASSERT(mGraph != nullptr);
CHECK(cudaGraphDestroy(mGraph)); mGraph = nullptr; \x7d
cudaGetLastError(); gLogError << "The CUDA graph capture ... failed.".
retEnd / gWritten are the status and out-parameter of end-capture, retDestroy
the status of the destroy on the else branch.  A failed SAFE_ASSERT aborts
before reaching cudaGetLastError and the log line. -/
def TrtCudaGraphSafe.endCaptureOnError (s : TrtCudaGraphSafe) (retEnd : Nat)
    (gWritten : Option Handle) (retDestroy : Nat) :
    Outcome TrtCudaGraphSafe × List DriverEvent :=
  let s1 : TrtCudaGraphSafe := { s with mGraph := gWritten }
  if retEnd = cudaErrorStreamCaptureInvalidated then
    if gWritten ≠ none then
      (Outcome.aborted, [DriverEvent.endCap retEnd gWritten])
    else
      (Outcome.ok s1,
       [DriverEvent.endCap retEnd gWritten, DriverEvent.getLastError,
        DriverEvent.logError "The CUDA graph capture on the stream has failed."])
  else if retEnd ≠ cudaSuccess then
    (Outcome.aborted, [DriverEvent.endCap retEnd gWritten])
  else if gWritten = none then
    (Outcome.aborted, [DriverEvent.endCap retEnd gWritten])
  else if retDestroy ≠ cudaSuccess then
    (Outcome.aborted,
     [DriverEvent.endCap retEnd gWritten,
      DriverEvent.graphDestroy gWritten retDestroy])
  else
    (Outcome.ok { s1 with mGraph := none },
     [DriverEvent.endCap retEnd gWritten,
      DriverEvent.graphDestroy gWritten retDestroy, DriverEvent.getLastError,
      DriverEvent.logError "The CUDA graph capture on the stream has failed."])

/-- The destructor: if (mGraphExec) cudaGraphExecDestroy(mGraphExec).  The
destroy status is not checked, so destruction never aborts; only the emitted
driver call matters. -/
def TrtCudaGraphSafe.destructorEvents (s : TrtCudaGraphSafe) : List DriverEvent :=
  match s.mGraphExec with
  | some e => [DriverEvent.execDestroy e]
  | none => []

/-- The choice of end-of-capture call issued after beginCapture, together with
the driver outcomes of the calls it performs. -/
inductive EndChoice where
  | normal (retEnd : Nat) (g : Option Handle) (retInst : Nat) (e : Option Handle)
      (retDestroy : Nat)
  | onError (retEnd : Nat) (g : Option Handle) (retDestroy : Nat)
deriving DecidableEq, Repr

/-- Dispatch the chosen end-of-capture call on a state. -/
def runEnd (s : TrtCudaGraphSafe) : EndChoice → Outcome TrtCudaGraphSafe × List DriverEvent
  | EndChoice.normal re g ri e rd => s.endCapture re g ri e rd
  | EndChoice.onError re g rd => s.endCaptureOnError re g rd

/-- The graph descriptor the driver writes through the out-parameter of the
cudaStreamEndCapture call of the chosen end-of-capture operation. -/
def producedGraph : EndChoice → Option Handle
  | EndChoice.normal _ g _ _ _ => g
  | EndChoice.onError _ g _ => g

/-- The driver calls of a sequence of launch(stream) calls, one status per
launch; launch never changes the state. -/
def launchTrace (s : TrtCudaGraphSafe) : List Nat → List DriverEvent
  | [] => []
  | r :: rs => (s.launch r).2 ++ launchTrace s rs

/-- One full allowed lifecycle: default-construct, beginCapture, one of
endCapture / endCaptureOnError, a sequence of launches, destruction.  Returns
Outcome.aborted (with the events up to the abort) if a CHECK or SAFE_ASSERT
fired, otherwise Outcome.ok with the state the object had when destroyed and
the complete driver-event trace including the destructor's. -/
def runLifecycle (rb : Nat) (ec : EndChoice) (ls : List Nat) :
    Outcome TrtCudaGraphSafe × List DriverEvent :=
  match TrtCudaGraphSafe.init.beginCapture rb with
  | (Outcome.aborted, tr) => (Outcome.aborted, tr)
  | (Outcome.ok s1, tr1) =>
    match runEnd s1 ec with
    | (Outcome.aborted, tr2) => (Outcome.aborted, tr1 ++ tr2)
    | (Outcome.ok s2, tr2) =>
      (Outcome.ok s2, tr1 ++ tr2 ++ launchTrace s2 ls ++ s2.destructorEvents)

/-- The sequence of member states along a non-aborting lifecycle: the state at
construction, after beginCapture, after the end-of-capture call, and after
each launch (launch never writes a member, so those states repeat the
post-end state).  none when some call aborted the process. -/
def stateTrace (rb : Nat) (ec : EndChoice) (ls : List Nat) :
    Option (List TrtCudaGraphSafe) :=
  match TrtCudaGraphSafe.init.beginCapture rb with
  | (Outcome.aborted, _) => none
  | (Outcome.ok s1, _) =>
    match runEnd s1 ec with
    | (Outcome.aborted, _) => none
    | (Outcome.ok s2, _) =>
      some (TrtCudaGraphSafe.init :: s1 :: s2 :: ls.map fun _ => s2)

/-- Does this event destroy the graph descriptor h (a cudaGraphDestroy call on
the non-null handle h)? -/
def isGraphDestroyOf (h : Handle) : DriverEvent → Bool
  | DriverEvent.graphDestroy (some g) _ => g == h
  | _ => false

/-- Number of cudaGraphDestroy calls on the non-null handle h in a trace. -/
def graphDestroyCount (tr : List DriverEvent) (h : Handle) : Nat :=
  tr.countP (isGraphDestroyOf h)

/-- Does this event destroy the executable graph h (a cudaGraphExecDestroy
call on h)? -/
def isExecDestroyOf (h : Handle) : DriverEvent → Bool
  | DriverEvent.execDestroy e => e == h
  | _ => false

/-- Number of cudaGraphExecDestroy calls on the handle h in a trace. -/
def execDestroyCount (tr : List DriverEvent) (h : Handle) : Nat :=
  tr.countP (isExecDestroyOf h)

/-- Is this event a cudaGraphInstantiate call? -/
def isInstantiateEv : DriverEvent → Bool
  | DriverEvent.instantiate _ _ => true
  | _ => false

/-- Is this event a cudaGetLastError call? -/
def isGetLastErrorEv : DriverEvent → Bool
  | DriverEvent.getLastError => true
  | _ => false

/-- Is this event a log of the message msg? -/
def isLogOf (msg : String) : DriverEvent → Bool
  | DriverEvent.logError m => m == msg
  | _ => false

/-- Number of adjacent steps in a state sequence at which the mGraphExec
member changes to a new non-null value, i.e. is assigned a non-null
executable-graph handle. -/
def execAssignCount : List TrtCudaGraphSafe → Nat
  | a :: b :: rest =>
    (if b.mGraphExec ≠ a.mGraphExec ∧ b.mGraphExec ≠ none then 1 else 0) +
      execAssignCount (b :: rest)
  | _ => 0

/-- Numeric values of the nvinfer1::DataType enumerators (int32 underlying
type of the vendor enum): kFLOAT = 0, kHALF = 1, kINT8 = 2, kINT32 = 3,
kBOOL = 4, kUINT8 = 5, kFP8 = 6.  A DataType value is modelled as its
underlying integer so that values outside the enumerators are representable,
as they are in C++. -/
def kFLOAT : Nat := 0

/-- nvinfer1::DataType::kHALF. -/
def kHALF : Nat := 1

/-- nvinfer1::DataType::kINT8. -/
def kINT8 : Nat := 2

/-- nvinfer1::DataType::kINT32. -/
def kINT32 : Nat := 3

/-- nvinfer1::DataType::kBOOL. -/
def kBOOL : Nat := 4

/-- nvinfer1::DataType::kUINT8. -/
def kUINT8 : Nat := 5

/-- nvinfer1::DataType::kFP8. -/
def kFP8 : Nat := 6

/-- elementSize(nvinfer1::DataType t): the switch covers the seven
enumerators; for any other underlying value control falls through the switch
to the final return 0. -/
def elementSize (t : Nat) : Nat :=
  if t = kINT32 then 4
  else if t = kFLOAT then 4
  else if t = kHALF then 2
  else if t = kINT8 then 1
  else if t = kUINT8 then 1
  else if t = kBOOL then 1
  else if t = kFP8 then 1
  else 0

/-- nvinfer1::Dims: an int32 count nbDims and an int32 array d of extents.
Entries are mathematical integers (int32 overflow is undefined behaviour in
the source and out of scope); callers keep nbDims within the array. -/
structure Dims where
  nbDims : Nat
  d : List Int
deriving DecidableEq, Repr

/-- volume(Dims const& d): std::accumulate of d.d[0 .. nbDims) starting from
int64 one under multiplication. -/
def volume (dm : Dims) : Int :=
  (dm.d.take dm.nbDims).foldl (fun a x => a * x) 1

/-- roundUp(m, n) = ((m + n - 1) / n) * n with C++ integer division, which
truncates toward zero (Int.tdiv). -/
def roundUp (m n : Int) : Int :=
  ((m + n - 1).tdiv n) * n

/-- volume(dims, vecDim, comps, batch): if vecDim >= 0 the extent at index
vecDim is rounded up to a multiple of comps, then the result is
volume(dims) * std::max(batch, 1).  The source indexes dims.d[vecDim] under
the caller contract that vecDim is in range; out-of-range reads are modelled
as 0 and out-of-range writes as no-ops. -/
def volumeVec (dims : Dims) (vecDim : Int) (comps : Int) (batch : Int) : Int :=
  let dims2 : Dims :=
    if 0 ≤ vecDim then
      { dims with
        d := dims.d.set vecDim.toNat (roundUp (dims.d.getD vecDim.toNat 0) comps) }
    else dims
  volume dims2 * max batch 1

/-- beginCapture immediately followed by endCapture on a fresh object, with
the driver outcomes of both calls passed through; aborts propagate. -/
def beginThenEnd (rb re : Nat) (g : Option Handle) (ri : Nat)
    (e : Option Handle) (rd : Nat) : Outcome TrtCudaGraphSafe × List DriverEvent :=
  match TrtCudaGraphSafe.init.beginCapture rb with
  | (Outcome.aborted, tr) => (Outcome.aborted, tr)
  | (Outcome.ok s1, tr1) =>
    let (o, tr2) := s1.endCapture re g ri e rd
    (o, tr1 ++ tr2)

/-- One getline(ss, substr, delimiter) call on the remaining stream contents:
reads characters into the token until the delimiter (consumed, stream still
good, rest returned as some) or end of input (eofbit set, rest is none). -/
def getlineStep (dl : Char) : List Char → List Char × Option (List Char)
  | [] => ([], none)
  | c :: cs =>
    if c = dl then ([], some cs)
    else
      let (t, r) := getlineStep dl cs
      (c :: t, r)

/-- safeSplitString(str, delimiter): the while (ss.good()) \x7b getline(ss,
substr, delimiter); splitVect.emplace_back(substr); \x7d loop.  The loop body
always runs at least once (a fresh stream is good even on empty input); after
a getline that consumed a delimiter the stream is still good, so a trailing
delimiter yields one further empty token; after a getline that hit end of
input the stream is no longer good and the loop stops.  Defined by structural
recursion on the characters; theorem safeSplitString_loop below shows it
satisfies exactly the getline-loop unfolding. -/
def safeSplitString (dl : Char) : List Char → List (List Char)
  | [] => [[]]
  | c :: cs =>
    if c = dl then [] :: safeSplitString dl cs
    else
      match safeSplitString dl cs with
      | [] => [[c]]
      | t :: ts => (c :: t) :: ts

/-- The structural definition of safeSplitString satisfies the getline-loop
unfolding: run one getline; if it hit end of input the loop pushes the token
and stops, otherwise it pushes the token and continues on the rest. -/
theorem safeSplitString_loop (dl : Char) (s : List Char) :
    safeSplitString dl s =
      (match getlineStep dl s with
       | (t, none) => [t]
       | (t, some r) => t :: safeSplitString dl r) := by
  induction s with
  | nil => rfl
  | cons c cs ih =>
    by_cases h : c = dl
    · subst h
      simp [safeSplitString, getlineStep]
    · rcases hg : getlineStep dl cs with ⟨t, r⟩
      cases r with
      | none =>
        have hsp : safeSplitString dl cs = [t] := by rw [ih, hg]
        simp [safeSplitString, getlineStep, h, hg, hsp]
      | some rest =>
        have hsp : safeSplitString dl cs = t :: safeSplitString dl rest := by
          rw [ih, hg]
        simp [safeSplitString, getlineStep, h, hg, hsp]

/-- The split result is never the empty vector. -/
theorem safeSplitString_ne_nil (dl : Char) (s : List Char) :
    safeSplitString dl s ≠ [] := by
  cases s with
  | nil => simp [safeSplitString]
  | cons c cs =>
    by_cases h : c = dl
    · simp [safeSplitString, h]
    · simp only [safeSplitString, if_neg h]
      rcases hsp : safeSplitString dl cs with _ | ⟨t, ts⟩ <;> simp

/-- An input containing the delimiter splits into at least two fields. -/
theorem two_le_length_safeSplitString (dl : Char) :
    ∀ s : List Char, dl ∈ s → 2 ≤ (safeSplitString dl s).length := by
  intro s hm
  induction s with
  | nil => cases hm
  | cons c cs ih =>
    by_cases h : c = dl
    · have hne := safeSplitString_ne_nil dl cs
      have hpos : 0 < (safeSplitString dl cs).length := List.length_pos.mpr hne
      simp only [safeSplitString, if_pos h, List.length_cons]
      omega
    · have hm2 : dl ∈ cs := by
        rcases List.mem_cons.mp hm with h1 | h2
        · exact absurd h1.symm h
        · exact h2
      have h2 := ih hm2
      rcases hsp : safeSplitString dl cs with _ | ⟨t, ts⟩
      · exact absurd hsp (safeSplitString_ne_nil dl cs)
      · rw [hsp] at h2
        simp only [safeSplitString, if_neg h, hsp, List.length_cons] at h2 ⊢
        omega

/-- An input ending in the delimiter splits with a trailing empty field. -/
theorem safeSplitString_trailing (dl : Char) :
    ∀ s0 : List Char, (safeSplitString dl (s0 ++ [dl])).getLast? = some [] := by
  intro s0
  induction s0 with
  | nil => simp [safeSplitString]
  | cons c cs ih =>
    by_cases h : c = dl
    · rcases hsp : safeSplitString dl (cs ++ [dl]) with _ | ⟨t, ts⟩
      · exact absurd hsp (safeSplitString_ne_nil dl (cs ++ [dl]))
      · rw [hsp] at ih
        simp only [List.cons_append, safeSplitString, if_pos h, List.append_eq, hsp]
        rw [List.getLast?_cons_cons]
        exact ih
    · have hlen : 2 ≤ (safeSplitString dl (cs ++ [dl])).length :=
        two_le_length_safeSplitString dl (cs ++ [dl]) (by simp)
      rcases hsp : safeSplitString dl (cs ++ [dl]) with _ | ⟨t, ts⟩
      · exact absurd hsp (safeSplitString_ne_nil dl (cs ++ [dl]))
      · cases ts with
        | nil =>
          rw [hsp] at hlen
          simp at hlen
        | cons u us =>
          rw [hsp] at ih
          simp only [List.cons_append, safeSplitString, if_neg h, List.append_eq, hsp]
          rw [List.getLast?_cons_cons] at ih
          rw [List.getLast?_cons_cons]
          exact ih

/-- C8: safeSplitString always returns a non-empty vector, the empty string
yields a vector containing exactly one empty string, and an input ending in
the delimiter yields a trailing empty-string element. -/
theorem c8_safeSplitString_nonempty_trailing :
    (∀ (dl : Char) (s : List Char), safeSplitString dl s ≠ []) ∧
    (∀ dl : Char, safeSplitString dl [] = [[]]) ∧
    (∀ (dl : Char) (s0 : List Char),
      (safeSplitString dl (s0 ++ [dl])).getLast? = some []) :=
  ⟨safeSplitString_ne_nil, fun _ => rfl, safeSplitString_trailing⟩

/-- C9: elementSize is total over the underlying data-type value: 4 for
kINT32 and kFLOAT, 2 for kHALF, 1 for kINT8, kUINT8, kBOOL and kFP8, and 0
for every value outside the enumerated cases. -/
theorem c9_elementSize_total :
    elementSize kINT32 = 4 ∧ elementSize kFLOAT = 4 ∧ elementSize kHALF = 2 ∧
    elementSize kINT8 = 1 ∧ elementSize kUINT8 = 1 ∧ elementSize kBOOL = 1 ∧
    elementSize kFP8 = 1 ∧
    ∀ t : Nat, t ∉ [kFLOAT, kHALF, kINT8, kINT32, kBOOL, kUINT8, kFP8] →
      elementSize t = 0 := by
  refine ⟨by decide, by decide, by decide, by decide, by decide, by decide,
    by decide, ?_⟩
  intro t ht
  simp only [List.mem_cons, List.not_mem_nil, or_false, not_or, kFLOAT, kHALF,
    kINT8, kINT32, kBOOL, kUINT8, kFP8] at ht
  obtain ⟨h0, h1, h2, h3, h4, h5, h6⟩ := ht
  simp [elementSize, kFLOAT, kHALF, kINT8, kINT32, kBOOL, kUINT8, kFP8,
    h0, h1, h2, h3, h4, h5, h6]

/-- C9 witness: the out-of-range value 42 is outside the enumerated cases and
maps to 0. -/
theorem c9_elementSize_total_witness :
    (42 : Nat) ∉ [kFLOAT, kHALF, kINT8, kINT32, kBOOL, kUINT8, kFP8] ∧
    elementSize 42 = 0 :=
  ⟨by decide, c9_elementSize_total.2.2.2.2.2.2.2 42 (by decide)⟩

/-- C10: for every batch value at most 1 (including 0 and negatives), the
four-argument volume agrees with batch 1, because the batch factor is
std::max(batch, 1). -/
theorem c10_volume_batch_clamp :
    ∀ (dims : Dims) (vecDim comps batch : Int), batch ≤ 1 →
      volumeVec dims vecDim comps batch = volumeVec dims vecDim comps 1 := by
  intro dims v c b hb
  simp [volumeVec, max_eq_right hb]

/-- C10 witness: batch -5 behaves as batch 1 on a concrete shape. -/
theorem c10_volume_batch_clamp_witness :
    (-5 : Int) ≤ 1 ∧
    volumeVec { nbDims := 2, d := [3, 4] } 1 2 (-5) =
      volumeVec { nbDims := 2, d := [3, 4] } 1 2 1 :=
  ⟨by decide, c10_volume_batch_clamp { nbDims := 2, d := [3, 4] } 1 2 (-5) (by decide)⟩

/-- C4: launch never aborts (it returns a Bool by construction), the returned
Bool is true exactly when the driver reports cudaSuccess for the
cudaGraphLaunch submission, and the only driver call made is that submission
of mGraphExec. -/
theorem c4_launch_returns_bool :
    ∀ (s : TrtCudaGraphSafe) (r : Nat),
      ((s.launch r).1 = true ↔ r = cudaSuccess) ∧
      ((s.launch r).1 = false ↔ r ≠ cudaSuccess) ∧
      (s.launch r).2 = [DriverEvent.graphLaunch s.mGraphExec r] := by
  intro s r
  refine ⟨?_, ?_, rfl⟩
  · simp [TrtCudaGraphSafe.launch]
  · simp [TrtCudaGraphSafe.launch]

/-- C5: beginCapture calls cudaStreamBeginCapture with exactly the mode
cudaStreamCaptureModeGlobal (its single driver call records that mode), and
aborts precisely when the driver reports a non-success status, returning the
unchanged object otherwise. -/
theorem c5_beginCapture_global_mode :
    ∀ (s : TrtCudaGraphSafe) (r : Nat),
      (s.beginCapture r).2 = [DriverEvent.beginCap cudaStreamCaptureModeGlobal r] ∧
      (s.beginCapture r).1 =
        (if r = cudaSuccess then Outcome.ok s else Outcome.aborted) ∧
      ((s.beginCapture r).1 = Outcome.aborted ↔ r ≠ cudaSuccess) := by
  intro s r
  refine ⟨rfl, rfl, ?_⟩
  by_cases h : r = cudaSuccess
  · simp [TrtCudaGraphSafe.beginCapture, h]
  · simp [TrtCudaGraphSafe.beginCapture, h]

/-- C2: endCaptureOnError on the capture-invalidated status aborts on any
non-null descriptor and returns only with a null descriptor; on any other
status it aborts unless the status is success with a non-null descriptor, in
which case that descriptor is passed to cudaGraphDestroy and, on return, the
field has been cleared to null. -/
theorem c2_endCaptureOnError_branches :
    ∀ (s : TrtCudaGraphSafe) (re : Nat) (g : Option Handle) (rd : Nat),
      (re = cudaErrorStreamCaptureInvalidated →
        (g ≠ none → (s.endCaptureOnError re g rd).1 = Outcome.aborted) ∧
        (∀ s1, (s.endCaptureOnError re g rd).1 = Outcome.ok s1 →
          g = none ∧ s1.mGraph = none)) ∧
      (re ≠ cudaErrorStreamCaptureInvalidated →
        ((re ≠ cudaSuccess ∨ g = none) →
          (s.endCaptureOnError re g rd).1 = Outcome.aborted) ∧
        (∀ h0, g = some h0 → re = cudaSuccess →
          DriverEvent.graphDestroy (some h0) rd ∈ (s.endCaptureOnError re g rd).2 ∧
          (∀ s1, (s.endCaptureOnError re g rd).1 = Outcome.ok s1 →
            s1.mGraph = none))) := by
  intro s re g rd
  constructor
  · intro hre
    subst hre
    constructor
    · intro hg
      simp [TrtCudaGraphSafe.endCaptureOnError, hg]
    · intro s1 hok
      cases g with
      | none =>
        simp [TrtCudaGraphSafe.endCaptureOnError] at hok
        subst hok
        exact ⟨rfl, rfl⟩
      | some g0 =>
        simp [TrtCudaGraphSafe.endCaptureOnError] at hok
  · intro hre
    constructor
    · intro hbad
      rcases hbad with hne | hgn
      · simp [TrtCudaGraphSafe.endCaptureOnError, hre, hne]
      · subst hgn
        by_cases hs : re = cudaSuccess
        · subst hs
          simp [TrtCudaGraphSafe.endCaptureOnError, hre]
        · simp [TrtCudaGraphSafe.endCaptureOnError, hre, hs]
    · intro h0 hg hs
      subst hg
      subst hs
      by_cases hrd : rd = cudaSuccess
      · subst hrd
        constructor
        · simp [TrtCudaGraphSafe.endCaptureOnError, hre]
        · intro s1 hok
          simp [TrtCudaGraphSafe.endCaptureOnError, hre] at hok
          subst hok
          rfl
      · constructor
        · simp [TrtCudaGraphSafe.endCaptureOnError, hre, hrd]
        · intro s1 hok
          simp [TrtCudaGraphSafe.endCaptureOnError, hre, hrd] at hok

/-- C2 witness: with status success and descriptor handle 3, the destroy call
on handle 3 is in the trace and the returned state has a null descriptor. -/
theorem c2_endCaptureOnError_branches_witness :
    cudaSuccess ≠ cudaErrorStreamCaptureInvalidated ∧
    DriverEvent.graphDestroy (some 3) cudaSuccess ∈
      (TrtCudaGraphSafe.init.endCaptureOnError cudaSuccess (some 3) cudaSuccess).2 ∧
    (∀ s1, (TrtCudaGraphSafe.init.endCaptureOnError cudaSuccess (some 3) cudaSuccess).1
        = Outcome.ok s1 → s1.mGraph = none) := by
  have h := ((c2_endCaptureOnError_branches TrtCudaGraphSafe.init cudaSuccess
    (some 3) cudaSuccess).2 (by decide)).2 3 rfl rfl
  exact ⟨by decide, h.1, h.2⟩

/-- C3: endCaptureOnError never calls cudaGraphInstantiate on any path, and
on every non-aborting execution it leaves mGraphExec exactly as it was and
makes exactly one cudaGetLastError call and exactly one log of the capture
failure message. -/
theorem c3_endCaptureOnError_frame :
    ∀ (s : TrtCudaGraphSafe) (re : Nat) (g : Option Handle) (rd : Nat),
      (s.endCaptureOnError re g rd).2.countP isInstantiateEv = 0 ∧
      (∀ s1, (s.endCaptureOnError re g rd).1 = Outcome.ok s1 →
        s1.mGraphExec = s.mGraphExec ∧
        (s.endCaptureOnError re g rd).2.countP isGetLastErrorEv = 1 ∧
        (s.endCaptureOnError re g rd).2.countP
          (isLogOf "The CUDA graph capture on the stream has failed.") = 1) := by
  intro s re g rd
  by_cases hre : re = cudaErrorStreamCaptureInvalidated
  · subst hre
    cases g with
    | none =>
      constructor
      · simp [TrtCudaGraphSafe.endCaptureOnError, isInstantiateEv]
      · intro s1 hok
        simp [TrtCudaGraphSafe.endCaptureOnError] at hok
        subst hok
        refine ⟨rfl, ?_, ?_⟩
        · simp [TrtCudaGraphSafe.endCaptureOnError, isGetLastErrorEv]
        · simp [TrtCudaGraphSafe.endCaptureOnError, isLogOf]
    | some g0 =>
      constructor
      · simp [TrtCudaGraphSafe.endCaptureOnError, isInstantiateEv]
      · intro s1 hok
        simp [TrtCudaGraphSafe.endCaptureOnError] at hok
  · by_cases hs : re = cudaSuccess
    · subst hs
      cases g with
      | none =>
        constructor
        · simp [TrtCudaGraphSafe.endCaptureOnError, hre, isInstantiateEv]
        · intro s1 hok
          simp [TrtCudaGraphSafe.endCaptureOnError, hre] at hok
      | some g0 =>
        by_cases hrd : rd = cudaSuccess
        · subst hrd
          constructor
          · simp [TrtCudaGraphSafe.endCaptureOnError, hre, isInstantiateEv]
          · intro s1 hok
            simp [TrtCudaGraphSafe.endCaptureOnError, hre] at hok
            subst hok
            refine ⟨rfl, ?_, ?_⟩
            · simp [TrtCudaGraphSafe.endCaptureOnError, hre, isGetLastErrorEv]
            · simp [TrtCudaGraphSafe.endCaptureOnError, hre, isLogOf]
        · constructor
          · simp [TrtCudaGraphSafe.endCaptureOnError, hre, hrd, isInstantiateEv]
          · intro s1 hok
            simp [TrtCudaGraphSafe.endCaptureOnError, hre, hrd] at hok
    · constructor
      · simp [TrtCudaGraphSafe.endCaptureOnError, hre, hs, isInstantiateEv]
      · intro s1 hok
        simp [TrtCudaGraphSafe.endCaptureOnError, hre, hs] at hok

/-- C3 witness: on the invalidated branch with a null descriptor the call
returns, leaves mGraphExec untouched, and the trace has no instantiate call,
one cudaGetLastError and one failure log. -/
theorem c3_endCaptureOnError_frame_witness :
    (TrtCudaGraphSafe.init.endCaptureOnError cudaErrorStreamCaptureInvalidated
      none 0).2.countP isInstantiateEv = 0 ∧
    (TrtCudaGraphSafe.init.endCaptureOnError cudaErrorStreamCaptureInvalidated
      none 0).1 = Outcome.ok TrtCudaGraphSafe.init ∧
    TrtCudaGraphSafe.init.mGraphExec = TrtCudaGraphSafe.init.mGraphExec ∧
    (TrtCudaGraphSafe.init.endCaptureOnError cudaErrorStreamCaptureInvalidated
      none 0).2.countP isGetLastErrorEv = 1 ∧
    (TrtCudaGraphSafe.init.endCaptureOnError cudaErrorStreamCaptureInvalidated
      none 0).2.countP
      (isLogOf "The CUDA graph capture on the stream has failed.") = 1 := by
  have h := c3_endCaptureOnError_frame TrtCudaGraphSafe.init
    cudaErrorStreamCaptureInvalidated none 0
  have h2 := h.2 TrtCudaGraphSafe.init (by decide)
  exact ⟨h.1, by decide, h2.1, h2.2.1, h2.2.2⟩

/-- C1 counterexample: drive beginCapture and endCapture on a fresh object
with every driver call succeeding (the driver writes descriptor handle 1 and
executable handle 2).  endCapture returns normally, but the graphDescriptor
field still holds the captured handle 1: the claimed postcondition that the
descriptor is null after a successful endCapture is false.  Only
endCaptureOnError clears the field. -/
theorem c1_counterexample :
    (beginThenEnd cudaSuccess cudaSuccess (some 1) cudaSuccess (some 2)
      cudaSuccess).1 = Outcome.ok { mGraph := some 1, mGraphExec := some 2 } ∧
    ¬ (∀ s1 : TrtCudaGraphSafe,
        (beginThenEnd cudaSuccess cudaSuccess (some 1) cudaSuccess (some 2)
          cudaSuccess).1 = Outcome.ok s1 → s1.mGraph = none) := by
  refine ⟨by decide, ?_⟩
  intro hall
  have h := hall { mGraph := some 1, mGraphExec := some 2 } (by decide)
  simp at h

/-- C1 (amended): a successful endCapture implies all three driver calls
reported success; it sets mGraphExec to the instantiated handle (non-null
whenever the driver wrote a non-null handle), issues exactly the finalize,
instantiate and descriptor-destroy calls, and leaves the mGraph field holding
the captured (now destroyed) descriptor value rather than null.  In
particular beginCapture immediately followed by endCapture with all driver
calls succeeding yields that state on a fresh object. -/
theorem c1_endCapture_success :
    (∀ (s : TrtCudaGraphSafe) (re : Nat) (g : Option Handle) (ri : Nat)
        (e : Option Handle) (rd : Nat) (s1 : TrtCudaGraphSafe)
        (tr : List DriverEvent),
      s.endCapture re g ri e rd = (Outcome.ok s1, tr) →
      re = cudaSuccess ∧ ri = cudaSuccess ∧ rd = cudaSuccess ∧
      s1.mGraphExec = e ∧ s1.mGraph = g ∧
      tr = [DriverEvent.endCap re g, DriverEvent.instantiate ri e,
            DriverEvent.graphDestroy g rd]) ∧
    (∀ g e : Option Handle,
      (beginThenEnd cudaSuccess cudaSuccess g cudaSuccess e cudaSuccess).1 =
        Outcome.ok { mGraph := g, mGraphExec := e }) := by
  constructor
  · intro s re g ri e rd s1 tr h
    by_cases h1 : re = cudaSuccess
    · subst h1
      by_cases h2 : ri = cudaSuccess
      · subst h2
        by_cases h3 : rd = cudaSuccess
        · subst h3
          simp [TrtCudaGraphSafe.endCapture] at h
          obtain ⟨hs1, htr⟩ := h
          subst hs1
          subst htr
          exact ⟨rfl, rfl, rfl, rfl, rfl, rfl⟩
        · simp [TrtCudaGraphSafe.endCapture, h3] at h
      · simp [TrtCudaGraphSafe.endCapture, h2] at h
    · simp [TrtCudaGraphSafe.endCapture, h1] at h
  · intro g e
    rfl

/-- C1 witness: the concrete all-success run used in the counterexample
satisfies the amended description. -/
theorem c1_endCapture_success_witness :
    TrtCudaGraphSafe.init.endCapture cudaSuccess (some 1) cudaSuccess (some 2)
        cudaSuccess =
      (Outcome.ok { mGraph := some 1, mGraphExec := some 2 },
       [DriverEvent.endCap cudaSuccess (some 1),
        DriverEvent.instantiate cudaSuccess (some 2),
        DriverEvent.graphDestroy (some 1) cudaSuccess]) ∧
    ({ mGraph := some 1, mGraphExec := some 2 } : TrtCudaGraphSafe).mGraphExec
      = some 2 ∧
    ({ mGraph := some 1, mGraphExec := some 2 } : TrtCudaGraphSafe).mGraph
      = some 1 := by
  have h := c1_endCapture_success.1 TrtCudaGraphSafe.init cudaSuccess (some 1)
    cudaSuccess (some 2) cudaSuccess
    { mGraph := some 1, mGraphExec := some 2 }
    [DriverEvent.endCap cudaSuccess (some 1),
     DriverEvent.instantiate cudaSuccess (some 2),
     DriverEvent.graphDestroy (some 1) cudaSuccess] (by decide)
  exact ⟨by decide, h.2.2.2.1, h.2.2.2.2.1⟩

/-- launch calls make no cudaGraphDestroy call. -/
theorem countP_launchTrace_graphDestroy (s : TrtCudaGraphSafe) (ls : List Nat)
    (h0 : Handle) : (launchTrace s ls).countP (isGraphDestroyOf h0) = 0 := by
  induction ls with
  | nil => rfl
  | cons r rs ih =>
    simp [launchTrace, TrtCudaGraphSafe.launch, List.countP_cons,
      List.countP_append, isGraphDestroyOf, ih]

/-- launch calls make no cudaGraphExecDestroy call. -/
theorem countP_launchTrace_execDestroy (s : TrtCudaGraphSafe) (ls : List Nat)
    (h0 : Handle) : (launchTrace s ls).countP (isExecDestroyOf h0) = 0 := by
  induction ls with
  | nil => rfl
  | cons r rs ih =>
    simp [launchTrace, TrtCudaGraphSafe.launch, List.countP_cons,
      List.countP_append, isExecDestroyOf, ih]

/-- The destructor makes no cudaGraphDestroy call. -/
theorem countP_destructorEvents_graphDestroy (s : TrtCudaGraphSafe)
    (h0 : Handle) :
    (TrtCudaGraphSafe.destructorEvents s).countP (isGraphDestroyOf h0) = 0 := by
  rcases hsE : s.mGraphExec with _ | e0 <;>
    simp [TrtCudaGraphSafe.destructorEvents, hsE, isGraphDestroyOf]

/-- The destructor calls cudaGraphExecDestroy on h0 exactly once when
mGraphExec holds h0, and never otherwise. -/
theorem countP_destructorEvents_execDestroy (s : TrtCudaGraphSafe)
    (h0 : Handle) :
    (TrtCudaGraphSafe.destructorEvents s).countP (isExecDestroyOf h0) =
      if s.mGraphExec = some h0 then 1 else 0 := by
  rcases hsE : s.mGraphExec with _ | e0
  · simp [TrtCudaGraphSafe.destructorEvents, hsE]
  · by_cases he : e0 = h0 <;>
      simp [TrtCudaGraphSafe.destructorEvents, hsE, isExecDestroyOf, he]

/-- C6: along every non-aborting allowed lifecycle (construct, beginCapture,
endCapture or endCaptureOnError, launches, destruction), each non-null graph
descriptor produced by the end-capture call is destroyed exactly once (no
other handle is graph-destroyed at all), and the executable graph held at
destruction is exec-destroyed exactly once (no exec-destroy otherwise). -/
theorem c6_lifecycle_destroy_once :
    ∀ (rb : Nat) (ec : EndChoice) (ls : List Nat) (s : TrtCudaGraphSafe)
      (tr : List DriverEvent),
      runLifecycle rb ec ls = (Outcome.ok s, tr) →
      (∀ h0, graphDestroyCount tr h0 =
        if producedGraph ec = some h0 then 1 else 0) ∧
      (∀ h0, execDestroyCount tr h0 =
        if s.mGraphExec = some h0 then 1 else 0) := by
  intro rb ec ls s tr hrun
  by_cases hrb : rb = cudaSuccess
  · subst hrb
    cases ec with
    | normal re g ri e rd =>
      by_cases h1 : re = cudaSuccess
      · subst h1
        by_cases h2 : ri = cudaSuccess
        · subst h2
          by_cases h3 : rd = cudaSuccess
          · subst h3
            simp [runLifecycle, runEnd, TrtCudaGraphSafe.beginCapture,
              TrtCudaGraphSafe.endCapture] at hrun
            obtain ⟨hs, htr⟩ := hrun
            subst hs
            subst htr
            constructor
            · intro h0
              rcases g with _ | g0
              · simp [graphDestroyCount, producedGraph, List.countP_cons,
                  List.countP_append, isGraphDestroyOf,
                  countP_launchTrace_graphDestroy,
                  countP_destructorEvents_graphDestroy]
              · by_cases hg : g0 = h0 <;>
                  simp [graphDestroyCount, producedGraph, List.countP_cons,
                    List.countP_append, isGraphDestroyOf, hg,
                    countP_launchTrace_graphDestroy,
                    countP_destructorEvents_graphDestroy]
            · intro h0
              simp [execDestroyCount, List.countP_cons, List.countP_append,
                isExecDestroyOf, countP_launchTrace_execDestroy,
                countP_destructorEvents_execDestroy]
          · simp [runLifecycle, runEnd, TrtCudaGraphSafe.beginCapture,
              TrtCudaGraphSafe.endCapture, h3] at hrun
        · simp [runLifecycle, runEnd, TrtCudaGraphSafe.beginCapture,
            TrtCudaGraphSafe.endCapture, h2] at hrun
      · simp [runLifecycle, runEnd, TrtCudaGraphSafe.beginCapture,
          TrtCudaGraphSafe.endCapture, h1] at hrun
    | onError re g rd =>
      by_cases hre : re = cudaErrorStreamCaptureInvalidated
      · subst hre
        rcases g with _ | g0
        · simp [runLifecycle, runEnd, TrtCudaGraphSafe.beginCapture,
            TrtCudaGraphSafe.endCaptureOnError] at hrun
          obtain ⟨hs, htr⟩ := hrun
          subst hs
          subst htr
          constructor
          · intro h0
            simp [graphDestroyCount, producedGraph, List.countP_cons,
              List.countP_append, isGraphDestroyOf,
              countP_launchTrace_graphDestroy,
              countP_destructorEvents_graphDestroy]
          · intro h0
            simp [execDestroyCount, List.countP_cons, List.countP_append,
              isExecDestroyOf, countP_launchTrace_execDestroy,
              countP_destructorEvents_execDestroy]
        · simp [runLifecycle, runEnd, TrtCudaGraphSafe.beginCapture,
            TrtCudaGraphSafe.endCaptureOnError] at hrun
      · by_cases hs2 : re = cudaSuccess
        · subst hs2
          rcases g with _ | g0
          · simp [runLifecycle, runEnd, TrtCudaGraphSafe.beginCapture,
              TrtCudaGraphSafe.endCaptureOnError, hre] at hrun
          · by_cases hrd : rd = cudaSuccess
            · subst hrd
              simp [runLifecycle, runEnd, TrtCudaGraphSafe.beginCapture,
                TrtCudaGraphSafe.endCaptureOnError, hre] at hrun
              obtain ⟨hs, htr⟩ := hrun
              subst hs
              subst htr
              constructor
              · intro h0
                by_cases hg : g0 = h0 <;>
                  simp [graphDestroyCount, producedGraph, List.countP_cons,
                    List.countP_append, isGraphDestroyOf, hg,
                    countP_launchTrace_graphDestroy,
                    countP_destructorEvents_graphDestroy]
              · intro h0
                simp [execDestroyCount, List.countP_cons, List.countP_append,
                  isExecDestroyOf, countP_launchTrace_execDestroy,
                  countP_destructorEvents_execDestroy]
            · simp [runLifecycle, runEnd, TrtCudaGraphSafe.beginCapture,
                TrtCudaGraphSafe.endCaptureOnError, hre, hrd] at hrun
        · simp [runLifecycle, runEnd, TrtCudaGraphSafe.beginCapture,
            TrtCudaGraphSafe.endCaptureOnError, hre, hs2] at hrun
  · simp [runLifecycle, TrtCudaGraphSafe.beginCapture, hrb] at hrun

/-- C6 witness: a concrete all-success lifecycle with descriptor 5,
executable 7 and two launches destroys descriptor 5 once and executable 7
once. -/
theorem c6_lifecycle_destroy_once_witness :
    graphDestroyCount
      (runLifecycle 0 (EndChoice.normal 0 (some 5) 0 (some 7) 0) [0, 1]).2 5
      = 1 ∧
    execDestroyCount
      (runLifecycle 0 (EndChoice.normal 0 (some 5) 0 (some 7) 0) [0, 1]).2 7
      = 1 := by
  have h := c6_lifecycle_destroy_once 0 (EndChoice.normal 0 (some 5) 0 (some 7) 0)
    [0, 1] { mGraph := some 5, mGraphExec := some 7 }
    (runLifecycle 0 (EndChoice.normal 0 (some 5) 0 (some 7) 0) [0, 1]).2
    (by decide)
  refine ⟨?_, ?_⟩
  · have h1 := h.1 5
    simpa [producedGraph] using h1
  · have h2 := h.2 7
    simpa using h2

/-- A state sequence that stays constant has no assignment steps. -/
theorem execAssignCount_cons_self (s2 : TrtCudaGraphSafe) (n : Nat) :
    execAssignCount (s2 :: List.replicate n s2) = 0 := by
  induction n with
  | zero => rfl
  | succ m ih =>
    simp only [List.replicate_succ, execAssignCount]
    simp [ih]

/-- C7: along every non-aborting allowed lifecycle the mGraphExec member is
assigned a non-null value at most once, never when the lifecycle ends with
endCaptureOnError; and neither beginCapture nor endCaptureOnError ever
changes mGraphExec (launch cannot, as it writes no member), so only
endCapture ever sets it. -/
theorem c7_exec_assigned_once :
    (∀ (rb : Nat) (ec : EndChoice) (ls : List Nat)
        (sts : List TrtCudaGraphSafe),
      stateTrace rb ec ls = some sts →
      execAssignCount sts ≤ 1 ∧
      (∀ re g rd, ec = EndChoice.onError re g rd → execAssignCount sts = 0)) ∧
    (∀ (s : TrtCudaGraphSafe) (rb : Nat) (s1 : TrtCudaGraphSafe)
        (tr : List DriverEvent),
      s.beginCapture rb = (Outcome.ok s1, tr) → s1.mGraphExec = s.mGraphExec) ∧
    (∀ (s : TrtCudaGraphSafe) (re : Nat) (g : Option Handle) (rd : Nat)
        (s1 : TrtCudaGraphSafe) (tr : List DriverEvent),
      s.endCaptureOnError re g rd = (Outcome.ok s1, tr) →
        s1.mGraphExec = s.mGraphExec) := by
  refine ⟨?_, ?_, ?_⟩
  · intro rb ec ls sts hst
    by_cases hrb : rb = cudaSuccess
    · subst hrb
      cases ec with
      | normal re g ri e rd =>
        by_cases h1 : re = cudaSuccess
        · subst h1
          by_cases h2 : ri = cudaSuccess
          · subst h2
            by_cases h3 : rd = cudaSuccess
            · subst h3
              simp [stateTrace, runEnd, TrtCudaGraphSafe.beginCapture,
                TrtCudaGraphSafe.endCapture] at hst
              subst hst
              constructor
              · rcases e with _ | e0 <;>
                  simp [execAssignCount, TrtCudaGraphSafe.init,
                    execAssignCount_cons_self]
              · intro re1 g1 rd1 heq
                simp at heq
            · simp [stateTrace, runEnd, TrtCudaGraphSafe.beginCapture,
                TrtCudaGraphSafe.endCapture, h3] at hst
          · simp [stateTrace, runEnd, TrtCudaGraphSafe.beginCapture,
              TrtCudaGraphSafe.endCapture, h2] at hst
        · simp [stateTrace, runEnd, TrtCudaGraphSafe.beginCapture,
            TrtCudaGraphSafe.endCapture, h1] at hst
      | onError re g rd =>
        by_cases hre : re = cudaErrorStreamCaptureInvalidated
        · subst hre
          rcases g with _ | g0
          · simp [stateTrace, runEnd, TrtCudaGraphSafe.beginCapture,
              TrtCudaGraphSafe.endCaptureOnError] at hst
            subst hst
            constructor
            · simp [execAssignCount, TrtCudaGraphSafe.init,
                execAssignCount_cons_self]
            · intro re1 g1 rd1 heq
              simp [execAssignCount, TrtCudaGraphSafe.init,
                execAssignCount_cons_self]
          · simp [stateTrace, runEnd, TrtCudaGraphSafe.beginCapture,
              TrtCudaGraphSafe.endCaptureOnError] at hst
        · by_cases hs2 : re = cudaSuccess
          · subst hs2
            rcases g with _ | g0
            · simp [stateTrace, runEnd, TrtCudaGraphSafe.beginCapture,
                TrtCudaGraphSafe.endCaptureOnError, hre] at hst
            · by_cases hrd : rd = cudaSuccess
              · subst hrd
                simp [stateTrace, runEnd, TrtCudaGraphSafe.beginCapture,
                  TrtCudaGraphSafe.endCaptureOnError, hre] at hst
                subst hst
                constructor
                · simp [execAssignCount, TrtCudaGraphSafe.init,
                    execAssignCount_cons_self]
                · intro re1 g1 rd1 heq
                  simp [execAssignCount, TrtCudaGraphSafe.init,
                    execAssignCount_cons_self]
              · simp [stateTrace, runEnd, TrtCudaGraphSafe.beginCapture,
                  TrtCudaGraphSafe.endCaptureOnError, hre, hrd] at hst
          · simp [stateTrace, runEnd, TrtCudaGraphSafe.beginCapture,
              TrtCudaGraphSafe.endCaptureOnError, hre, hs2] at hst
    · simp [stateTrace, TrtCudaGraphSafe.beginCapture, hrb] at hst
  · intro s rb s1 tr h
    by_cases hrb : rb = cudaSuccess
    · simp [TrtCudaGraphSafe.beginCapture, hrb] at h
      rw [← h.1]
    · simp [TrtCudaGraphSafe.beginCapture, hrb] at h
  · intro s re g rd s1 tr h
    by_cases hre : re = cudaErrorStreamCaptureInvalidated
    · subst hre
      rcases g with _ | g0
      · simp [TrtCudaGraphSafe.endCaptureOnError] at h
        rw [← h.1]
      · simp [TrtCudaGraphSafe.endCaptureOnError] at h
    · by_cases hs2 : re = cudaSuccess
      · subst hs2
        rcases g with _ | g0
        · simp [TrtCudaGraphSafe.endCaptureOnError, hre] at h
        · by_cases hrd : rd = cudaSuccess
          · subst hrd
            simp [TrtCudaGraphSafe.endCaptureOnError, hre] at h
            rw [← h.1]
          · simp [TrtCudaGraphSafe.endCaptureOnError, hre, hrd] at h
      · simp [TrtCudaGraphSafe.endCaptureOnError, hre, hs2] at h

/-- C7 witness: a concrete lifecycle ending in endCaptureOnError on the
invalidated status has no non-null assignment to mGraphExec at all. -/
theorem c7_exec_assigned_once_witness :
    execAssignCount
      [TrtCudaGraphSafe.init, TrtCudaGraphSafe.init, TrtCudaGraphSafe.init]
      = 0 := by
  have h := c7_exec_assigned_once.1 0
    (EndChoice.onError cudaErrorStreamCaptureInvalidated none 0) []
    [TrtCudaGraphSafe.init, TrtCudaGraphSafe.init, TrtCudaGraphSafe.init]
    (by decide)
  exact h.2 cudaErrorStreamCaptureInvalidated none 0 rfl

end tensorrt_buffer
